import Mathlib

/-!
Verification of the api-to-cdn-sync pipeline (fetcher, transformer, deployer)
against its specification.  The JavaScript sources are shallowly embedded:
pure computations become Lean functions on `List Char` / `String`, the
HTTP layer is an explicit oracle argument, and every `throw new Error(msg)`
site becomes a constructor of an error type carrying the same message.
-/

/-! ### Character helpers (ASCII classes used by the JS code) -/

/-- ASCII lower-case letter test, the character class of the regex `[a-z]`
in `toCamelCase` (transformer.js line 43). -/
def isAsciiLower (c : Char) : Bool := 97 ≤ c.toNat && c.toNat ≤ 122

/-- ASCII digit test (`0`–`9`). -/
def isDigitChar (c : Char) : Bool := 48 ≤ c.toNat && c.toNat ≤ 57

/-- JSON insignificant whitespace, also what `JSON.stringify(_, null, 2)`
emits between tokens. -/
def isWsChar (c : Char) : Bool := c = ' ' || c = '\n' || c = '\t' || c = '\r'

/-- `String.prototype.toUpperCase` restricted to an ASCII lower-case letter:
subtract 32 from the code point.  On any other character it is the identity,
which is all `toCamelCase` ever needs (the regex group is `[a-z]`). -/
def jsUpper (c : Char) : Char :=
  if h : isAsciiLower c = true then
    Char.ofNatAux (c.toNat - 32)
      (by
        simp only [isAsciiLower, Bool.and_eq_true, decide_eq_true_eq] at h
        exact Or.inl (by omega))
  else c

/-! ### transformer.js: toCamelCase

`function toCamelCase(str)` replaces, globally, every match of the regex
"hyphen followed by a captured `[a-z]` letter" with the upper-cased letter:
a single left-to-right scan in which, at `-` followed by an ASCII lower-case
letter, both characters are replaced by the upper-cased letter and scanning
resumes after the match; any other character is copied and scanning advances
one position. -/

def toCamelCaseL : List Char → List Char
  | [] => []
  | [c] => [c]
  | c :: d :: rest =>
    if c = '-' && isAsciiLower d then jsUpper d :: toCamelCaseL rest
    else c :: toCamelCaseL (d :: rest)

/-- transformer.js `toCamelCase` on strings. -/
def toCamelCase (s : String) : String := ⟨toCamelCaseL s.data⟩

/-- Name made only of ASCII letters, digits and hyphens (the claims'
"endpoint name" character set). -/
def allowedNameChars (l : List Char) : Bool :=
  l.all (fun c =>
    isAsciiLower c || (65 ≤ c.toNat && c.toNat ≤ 90) || isDigitChar c || c = '-')

/-- Head of the list is an ASCII lower-case letter. -/
def headLower : List Char → Bool
  | [] => false
  | c :: _ => isAsciiLower c

/-- Every hyphen in the list is immediately followed by an ASCII lower-case
letter (so the camel-case regex consumes every hyphen). -/
def hyphensOk : List Char → Bool
  | [] => true
  | c :: rest => (!(c = '-') || headLower rest) && hyphensOk rest

/-- Head of the list is an ASCII digit. -/
def headDigit : List Char → Bool
  | [] => false
  | c :: _ => isDigitChar c

/-! ### The JSON data model

`FetchResult` in the spec is an arbitrary decoded JSON value.  Numbers are
modelled as exact integers (`Int`): the pipeline's sample payloads and the
claims' concrete inputs are integer-valued, and IEEE-754 float formatting
is outside the scope of this embedding. -/

inductive JsonVal where
  | jnull : JsonVal
  | jbool : Bool → JsonVal
  | jint : Int → JsonVal
  | jstr : String → JsonVal
  | jarr : List JsonVal → JsonVal
  | jobj : List (String × JsonVal) → JsonVal

/-! ### JSON.stringify(data, null, 2)

The serializer used by transformer.js line 11.  Faithful to ECMA-262
`SerializeJSONProperty` with `gap = "  "`: two-space indentation, `",\n"`
between items, `": "` after object keys, and `QuoteJSONString` escaping
(`\"`, `\\`, `\b`, `\f`, `\n`, `\r`, `\t`, and `\u00xx` for the remaining
control characters). -/

/-- Decimal digit character for `k < 10` (wildcard is never reached by the
digit emitters below). -/
def digitChar : Nat → Char
  | 0 => '0'
  | 1 => '1'
  | 2 => '2'
  | 3 => '3'
  | 4 => '4'
  | 5 => '5'
  | 6 => '6'
  | 7 => '7'
  | 8 => '8'
  | 9 => '9'
  | _ => '*'

/-- Lower-case hexadecimal digit character for `k < 16`. -/
def hexChar : Nat → Char
  | 0 => '0'
  | 1 => '1'
  | 2 => '2'
  | 3 => '3'
  | 4 => '4'
  | 5 => '5'
  | 6 => '6'
  | 7 => '7'
  | 8 => '8'
  | 9 => '9'
  | 10 => 'a'
  | 11 => 'b'
  | 12 => 'c'
  | 13 => 'd'
  | 14 => 'e'
  | 15 => 'f'
  | _ => '*'

/-- Decimal digits of a natural number, most significant first. -/
def natChars (n : Nat) : List Char :=
  if h : n < 10 then [digitChar n]
  else natChars (n / 10) ++ [digitChar (n % 10)]
termination_by n
decreasing_by exact Nat.div_lt_self (by omega) (by omega)

/-- Decimal rendering of an integer: optional minus sign, then digits
(`-0` cannot arise: `(0 : Int).natAbs = 0` renders as `0`). -/
def intChars (i : Int) : List Char :=
  if i < 0 then '-' :: natChars i.natAbs else natChars i.natAbs

/-- `QuoteJSONString` escaping of one character. -/
def escapeChar (c : Char) : List Char :=
  if c = '"' then ['\\', '"']
  else if c = '\\' then ['\\', '\\']
  else if c.toNat = 8 then ['\\', 'b']
  else if c.toNat = 12 then ['\\', 'f']
  else if c = '\n' then ['\\', 'n']
  else if c = '\r' then ['\\', 'r']
  else if c = '\t' then ['\\', 't']
  else if c.toNat < 32 then
    ['\\', 'u', '0', '0', hexChar (c.toNat / 16), hexChar (c.toNat % 16)]
  else [c]

/-- A JSON string literal: quote, escaped characters, quote. -/
def quoteChars (s : String) : List Char :=
  '"' :: (s.data.flatMap escapeChar ++ ['"'])

/-- Indentation for nesting depth `n` under `gap = "  "`. -/
def pad (n : Nat) : List Char := List.replicate (2 * n) ' '

mutual

/-- `JSON.stringify(v, null, 2)` at nesting depth `i`, as a character list. -/
def stringifyV : Nat → JsonVal → List Char
  | _, JsonVal.jnull => ['n', 'u', 'l', 'l']
  | _, JsonVal.jbool true => ['t', 'r', 'u', 'e']
  | _, JsonVal.jbool false => ['f', 'a', 'l', 's', 'e']
  | _, JsonVal.jint n => intChars n
  | _, JsonVal.jstr s => quoteChars s
  | _, JsonVal.jarr [] => ['[', ']']
  | i, JsonVal.jarr (e :: es) =>
    '[' :: '\n' :: (pad (i + 1) ++
      (stringifyV (i + 1) e ++ (arrTail (i + 1) es ++ '\n' :: (pad i ++ [']']))))
  | _, JsonVal.jobj [] => ['{', '}']
  | i, JsonVal.jobj (m :: ms) =>
    '{' :: '\n' :: (pad (i + 1) ++
      (memberChars (i + 1) m ++ (objTail (i + 1) ms ++ '\n' :: (pad i ++ ['}']))))

/-- One object member: quoted key, `": "`, value. -/
def memberChars : Nat → String × JsonVal → List Char
  | i, (k, v) => quoteChars k ++ (':' :: ' ' :: stringifyV i v)

/-- Second and later array items, each preceded by `",\n"` and indentation. -/
def arrTail : Nat → List JsonVal → List Char
  | _, [] => []
  | i, e :: es => ',' :: '\n' :: (pad i ++ (stringifyV i e ++ arrTail i es))

/-- Second and later object members, each preceded by `",\n"` and indentation. -/
def objTail : Nat → List (String × JsonVal) → List Char
  | _, [] => []
  | i, m :: ms => ',' :: '\n' :: (pad i ++ (memberChars i m ++ objTail i ms))

end

/-- `JSON.stringify(v, null, 2)` as a `String` (top level is depth 0). -/
def jsonStringify (v : JsonVal) : String := ⟨stringifyV 0 v⟩

/-! ### JSON.parse

A recursive-descent JSON parser over `List Char`, the model of the
`JSON.parse` a consumer applies to the embedded data literal (and of the
decode step the HTTP layer applies to response bodies).  `fuel` is a
structural-recursion counter; `parseJsonChars` supplies more than enough
of it for its input. -/

/-- Drop leading JSON whitespace. -/
def skipWs : List Char → List Char
  | [] => []
  | c :: r => if isWsChar c then skipWs r else c :: r

/-- Longest prefix of decimal digits, and the remainder. -/
def takeDigits : List Char → List Char × List Char
  | [] => ([], [])
  | c :: r =>
    if isDigitChar c then
      ((c :: (takeDigits r).1), (takeDigits r).2)
    else ([], c :: r)

/-- Value of a (most-significant-first) digit list. -/
def digitsToNat (ds : List Char) : Nat :=
  ds.foldl (fun a c => a * 10 + (c.toNat - 48)) 0

/-- Hexadecimal digit value. -/
def hexNib (c : Char) : Option Nat :=
  if 48 ≤ c.toNat && c.toNat ≤ 57 then some (c.toNat - 48)
  else if 97 ≤ c.toNat && c.toNat ≤ 102 then some (c.toNat - 87)
  else if 65 ≤ c.toNat && c.toNat ≤ 70 then some (c.toNat - 55)
  else none

/-- Single-character escape codes. -/
def unescChar (c : Char) : Option Char :=
  if c = '"' then some '"'
  else if c = '\\' then some '\\'
  else if c = '/' then some '/'
  else if c = 'b' then some (Char.ofNat 8)
  else if c = 'f' then some (Char.ofNat 12)
  else if c = 'n' then some '\n'
  else if c = 'r' then some '\r'
  else if c = 't' then some '\t'
  else none

/-- Body of a string literal after the opening quote: returns the decoded
characters and the remainder after the closing quote. -/
def parseStrBody (acc : List Char) : List Char → Option (List Char × List Char)
  | [] => none
  | '"' :: r => some (acc.reverse, r)
  | '\\' :: r =>
    match r with
    | 'u' :: a :: b :: c :: d :: r2 =>
      match hexNib a, hexNib b, hexNib c, hexNib d with
      | some x, some y, some z, some w =>
        parseStrBody (Char.ofNat (((x * 16 + y) * 16 + z) * 16 + w) :: acc) r2
      | _, _, _, _ => none
    | e :: r2 =>
      match unescChar e with
      | some ch => parseStrBody (ch :: acc) r2
      | none => none
    | [] => none
  | c :: r => parseStrBody (c :: acc) r
termination_by l => l.length
decreasing_by all_goals first
  | (simp [List.length_cons]; omega)
  | simp [List.length_cons]

mutual

/-- Parse one JSON value; returns it with the unconsumed remainder. -/
def parseVal : Nat → List Char → Option (JsonVal × List Char)
  | 0, _ => none
  | fuel + 1, cs =>
    match skipWs cs with
    | [] => none
    | c :: r =>
      if c = '-' then
        match takeDigits r with
        | ([], _) => none
        | (d :: ds, r2) => some (JsonVal.jint (-(digitsToNat (d :: ds) : Int)), r2)
      else if isDigitChar c then
        some (JsonVal.jint ((digitsToNat (takeDigits (c :: r)).1 : Int)),
          (takeDigits (c :: r)).2)
      else if c = '"' then
        match parseStrBody [] r with
        | some (sl, r2) => some (JsonVal.jstr ⟨sl⟩, r2)
        | none => none
      else if c = '[' then
        match skipWs r with
        | [] => none
        | d :: r2 =>
          if d = ']' then some (JsonVal.jarr [], r2)
          else
            match parseElems fuel (d :: r2) with
            | some (es, r3) => some (JsonVal.jarr es, r3)
            | none => none
      else if c = '{' then
        match skipWs r with
        | [] => none
        | d :: r2 =>
          if d = '}' then some (JsonVal.jobj [], r2)
          else
            match parseMembers fuel (d :: r2) with
            | some (ms, r3) => some (JsonVal.jobj ms, r3)
            | none => none
      else
        match c :: r with
        | 'n' :: 'u' :: 'l' :: 'l' :: r2 => some (JsonVal.jnull, r2)
        | 't' :: 'r' :: 'u' :: 'e' :: r2 => some (JsonVal.jbool true, r2)
        | 'f' :: 'a' :: 'l' :: 's' :: 'e' :: r2 => some (JsonVal.jbool false, r2)
        | _ => none

/-- Parse one-or-more comma-separated array items up to the closing `]`. -/
def parseElems : Nat → List Char → Option (List JsonVal × List Char)
  | 0, _ => none
  | fuel + 1, cs =>
    match parseVal fuel cs with
    | none => none
    | some (v, r) =>
      match skipWs r with
      | ',' :: r2 =>
        match parseElems fuel r2 with
        | some (vs, r3) => some (v :: vs, r3)
        | none => none
      | ']' :: r2 => some ([v], r2)
      | _ => none

/-- Parse one-or-more comma-separated object members up to the closing `}`. -/
def parseMembers : Nat → List Char → Option (List (String × JsonVal) × List Char)
  | 0, _ => none
  | fuel + 1, cs =>
    match skipWs cs with
    | '"' :: r =>
      match parseStrBody [] r with
      | none => none
      | some (kl, r1) =>
        match skipWs r1 with
        | ':' :: r2 =>
          match parseVal fuel r2 with
          | none => none
          | some (v, r3) =>
            match skipWs r3 with
            | ',' :: r4 =>
              match parseMembers fuel r4 with
              | some (ms, r5) => some ((⟨kl⟩, v) :: ms, r5)
              | none => none
            | '}' :: r4 => some ([(⟨kl⟩, v)], r4)
            | _ => none
        | _ => none
    | _ => none

end

/-- `JSON.parse` on a character list: one value, then only trailing
whitespace. -/
def parseJsonChars (cs : List Char) : Option JsonVal :=
  match parseVal (cs.length + 1) cs with
  | some (v, r) => if skipWs r = [] then some v else none
  | none => none

/-- `JSON.parse` on a string. -/
def parseJson (s : String) : Option JsonVal := parseJsonChars s.data

/-! ### Fuel measures for the parser (used only in proofs) -/

/-- All characters are JSON whitespace. -/
def allWs (l : List Char) : Bool := l.all isWsChar

/-- Empty, or headed by a non-digit: a context that cannot extend a
rendered number. -/
def noDigitHead : List Char → Bool
  | [] => true
  | c :: _ => !(isDigitChar c)

mutual

/-- Fuel sufficient for `parseVal` on the rendering of `v`. -/
def nfV : JsonVal → Nat
  | JsonVal.jarr (e :: es) => nfE (e :: es) + 1
  | JsonVal.jobj (m :: ms) => nfM (m :: ms) + 1
  | _ => 1

/-- Fuel sufficient for `parseElems` on rendered items. -/
def nfE : List JsonVal → Nat
  | [] => 0
  | e :: es => 1 + Nat.max (nfV e) (nfE es)

/-- Fuel sufficient for `parseMembers` on rendered members. -/
def nfM : List (String × JsonVal) → Nat
  | [] => 0
  | (_, v) :: ms => 1 + Nat.max (nfV v) (nfM ms)

end

/-! ### transformer.js: transformToJS

`transformToJS(data, config)` renders the template literal of lines 8–23.
The capture-time `new Date().toISOString()` is passed in as the `timestamp`
argument (it is the template's only impure input), and `config.name` as
`name`.  The template is split at the data literal into a prefix and a
suffix so the embedding of the extraction step below is direct; their
concatenation is character-for-character the source template. -/

/-- Everything of the generated module before the embedded data literal. -/
def modulePrefix (name timestamp : String) : String :=
  "// Generated on " ++ timestamp ++ "\n" ++
  "// Source: " ++ name ++ "\n" ++
  "\n" ++
  "export const " ++ toCamelCase name ++ " = "

/-- Everything of the generated module after the embedded data literal. -/
def moduleSuffix (name timestamp : String) : String :=
  ";\n" ++
  "\n" ++
  "export const metadata = \x7b\n" ++
  "  timestamp: \"" ++ timestamp ++ "\",\n" ++
  "  source: \"" ++ name ++ "\",\n" ++
  "  generator: \"api-to-cdn-sync\",\n" ++
  "  version: \"1.0.0\"\n" ++
  "\x7d;\n" ++
  "\n" ++
  "// Usage example:\n" ++
  "// import \x7b " ++ toCamelCase name ++
  ", metadata \x7d from './account-specifications.js';\n" ++
  "// console.log('Data generated:', metadata.timestamp);\n"

/-- transformer.js `transformToJS`: the generated module text. -/
def transformToJS (data : JsonVal) (name timestamp : String) : String :=
  modulePrefix name timestamp ++ jsonStringify data ++ moduleSuffix name timestamp

/-- Extract the embedded data literal from a generated module: drop the
prefix determined by the endpoint name and capture timestamp, and the fixed
trailing suffix. -/
def extractModuleData (name timestamp : String) (content : String) : List Char :=
  let body := content.data.drop (modulePrefix name timestamp).data.length
  body.take (body.length - (moduleSuffix name timestamp).data.length)

/-! ### fetcher.js: fetchApiData

`fetchApiData(config)` builds the URL, requires `process.env.API_AUTH_TOKEN`
(a falsy value — absent or empty — throws before any network activity),
then performs one `axios.get`.  The HTTP layer is an oracle argument
(`AxiosOutcome`); `networkCalls` counts how many times the code reaches it.
With axios defaults a 2xx response resolves and its body is JSON-decoded
when possible, silently falling back to the raw text (`RespData`); any
non-2xx status or transport failure rejects with an error object carrying
`response?.status`, `response.data.error` and `message`. -/

structure FetchConfig where
  apiBaseUrl : String
  path : String

/-- `response.data` as axios delivers it: decoded JSON, or the raw body
text when the body is not valid JSON. -/
inductive RespData where
  | json : JsonVal → RespData
  | text : String → RespData

/-- The axios default decode step for a response body. -/
def axiosDecode (body : String) : RespData :=
  match parseJson body with
  | some v => RespData.json v
  | none => RespData.text body

/-- The rejection object axios passes to the `catch` block. -/
structure AxiosErr where
  responseStatus : Option Nat
  responseDataError : Option String
  message : String

/-- One `axios.get` interaction, as observed by fetcher.js. -/
inductive AxiosOutcome where
  | resolved : Nat → RespData → AxiosOutcome
  | rejected : AxiosErr → AxiosOutcome

/-- JS truthiness of an optional string (`undefined` and `""` are falsy). -/
def jsTruthy : Option String → Bool
  | none => false
  | some s => !(s = "")

/-- A JS template-literal interpolation of a possibly-undefined string. -/
def jsShow : Option String → String
  | none => "undefined"
  | some s => s

/-- JS `a || b` over an optional string and a fallback. -/
def jsOr : Option String → String → String
  | none, b => b
  | some a, b => if a = "" then b else a

/-- The typed error taxonomy of the spec, one constructor per `throw` site
of fetcher.js, carrying the exact thrown message. -/
inductive FetchError where
  | configError : String → FetchError
  | authError : String → FetchError
  | apiError : Nat → String → FetchError
  | netError : String → FetchError

/-- The `catch` block of fetcher.js lines 25–35: 401 first, then any
response status at least 400, else a transport-level failure. -/
def classifyFetchError (e : AxiosErr) : FetchError :=
  match e.responseStatus with
  | some st =>
    if st = 401 then
      FetchError.authError ("Authentication failed: " ++ jsShow e.responseDataError)
    else if 400 ≤ st then
      FetchError.apiError st
        ("API error (" ++ toString st ++ "): " ++ jsOr e.responseDataError e.message)
    else FetchError.netError ("Network error: " ++ e.message)
  | none => FetchError.netError ("Network error: " ++ e.message)

/-- Result of one `fetchApiData` run plus how often the HTTP layer ran. -/
structure FetchRun where
  result : Except FetchError RespData
  networkCalls : Nat

/-- fetcher.js `fetchApiData`.  `authToken` models
`process.env.API_AUTH_TOKEN`, `outcome` the single `axios.get`. -/
def fetchApiData (config : FetchConfig) (authToken : Option String)
    (outcome : AxiosOutcome) : FetchRun :=
  if jsTruthy authToken = false then
    ⟨Except.error (FetchError.configError
      ("API_AUTH_TOKEN environment variable is required")), 0⟩
  else
    match outcome with
    | AxiosOutcome.resolved _ data => ⟨Except.ok data, 1⟩
    | AxiosOutcome.rejected e => ⟨Except.error (classifyFetchError e), 1⟩

/-! ### deployer.js (src/deployer): deployToCDN, uploadToKV,
deployMultipleFiles, testCDNAccess

Filesystem and network are oracle arguments: `onDisk` models
`fs.existsSync`, `content` the successfully read file, and `KVNet` the
single `axios.put` of `uploadToKV`.  Every thrown `Error` is a constructor
carrying the thrown message; `networkCalls` counts uses of the PUT. -/

structure CloudflareConfig where
  apiToken : Option String
  zoneId : Option String
  accountId : Option String
  namespaceId : Option String
  cdnDomain : Option String

/-- The rejection object of the `axios.put`, as read by uploadToKV:
`response?.status`, the serialized `response.data.errors` when that field
exists, and `message`. -/
structure KVErr where
  responseStatus : Option Nat
  responseErrors : Option String
  message : String

/-- One `axios.put` interaction: a resolved response carries
`data.success` and the serialized `data.errors`; otherwise the rejection. -/
inductive KVNet where
  | resolved : Bool → String → KVNet
  | rejected : KVErr → KVNet

/-- Successful `uploadToKV` return value. -/
structure KVSuccess where
  key : String
  size : Nat

/-- The PUT URL of uploadToKV (interpolating missing fields the JS way). -/
def kvUploadUrl (config : CloudflareConfig) (key : String) : String :=
  "https://api.cloudflare.com/client/v4/accounts/" ++ jsShow config.accountId ++
  "/storage/kv/namespaces/" ++ jsShow config.namespaceId ++ "/values/" ++ key

/-- deployer.js `uploadToKV` (lines 56–96): the error string is the message
of the `Error` it throws. -/
def uploadToKV (config : CloudflareConfig) (key content : String)
    (net : KVNet) : Except String KVSuccess :=
  match net with
  | KVNet.resolved true _ => Except.ok ⟨key, content.length⟩
  | KVNet.resolved false errs => Except.error ("KV upload failed: " ++ errs)
  | KVNet.rejected e =>
    if e.responseStatus = some 401 then
      Except.error ("Cloudflare authentication failed - check API token")
    else if e.responseStatus = some 403 then
      Except.error ("Cloudflare access denied - check account permissions")
    else
      match e.responseErrors with
      | some errs => Except.error ("Cloudflare API error: " ++ errs)
      | none => Except.error ("Network error: " ++ e.message)

/-- One `throw` site of deployToCDN each. -/
inductive DeployErr where
  | configError : String → DeployErr
  | fileNotFound : String → DeployErr
  | deployFailed : String → DeployErr

/-- The `error.message` the surrounding `catch` in deployMultipleFiles
reads off a deployToCDN failure. -/
def DeployErr.message : DeployErr → String
  | DeployErr.configError m => m
  | DeployErr.fileNotFound m => m
  | DeployErr.deployFailed m => m

/-- Successful deployToCDN return value. -/
structure DeployResult where
  fileName : String
  size : Nat
  url : String
  kvResult : KVSuccess

/-- Result of one deployToCDN run plus how often the PUT ran. -/
structure DeployRun where
  result : Except DeployErr DeployResult
  networkCalls : Nat

/-- deployer.js `deployToCDN` (lines 15–46): validate `apiToken`, `zoneId`,
`accountId` (only those three), check the file exists, then upload; any
upload error is re-thrown as `CDN deployment failed: ...`. -/
def deployToCDN (config : CloudflareConfig) (filePath fileName : String)
    (onDisk : Bool) (content : String) (net : KVNet) : DeployRun :=
  if !(jsTruthy config.apiToken && jsTruthy config.zoneId
      && jsTruthy config.accountId) then
    ⟨Except.error (DeployErr.configError
      ("Missing required Cloudflare configuration: apiToken, zoneId, accountId")), 0⟩
  else if !onDisk then
    ⟨Except.error (DeployErr.fileNotFound ("File not found: " ++ filePath)), 0⟩
  else
    match uploadToKV config fileName content net with
    | Except.ok kv =>
      ⟨Except.ok ⟨fileName, content.length,
        "https://" ++ jsShow config.cdnDomain ++ "/" ++ fileName, kv⟩, 1⟩
    | Except.error msg =>
      ⟨Except.error (DeployErr.deployFailed ("CDN deployment failed: " ++ msg)), 1⟩

/-- One entry of the `files` array of deployMultipleFiles, bundled with the
environment (filesystem and network) its own deployToCDN call observes. -/
structure FileJob where
  filePath : String
  fileName : String
  onDisk : Bool
  content : String
  net : KVNet

/-- One entry of the `results` array: the deployToCDN result object, or the
`{success:false, fileName, error}` record pushed by the `catch`. -/
inductive FileOutcome where
  | ok : DeployResult → FileOutcome
  | failed : String → String → FileOutcome

/-- The `success` field of a results entry. -/
def FileOutcome.isOk : FileOutcome → Bool
  | FileOutcome.ok _ => true
  | FileOutcome.failed _ _ => false

/-- The body of the `for` loop of deployMultipleFiles: try one file,
catching any error into a failure record. -/
def runDeployJob (config : CloudflareConfig) (f : FileJob) : FileOutcome :=
  match (deployToCDN config f.filePath f.fileName f.onDisk f.content f.net).result with
  | Except.ok r => FileOutcome.ok r
  | Except.error e => FileOutcome.failed f.fileName e.message

/-- The aggregate object deployMultipleFiles returns. -/
structure BatchOutcome where
  success : Bool
  total : Nat
  successful : Nat
  failed : Nat
  results : List FileOutcome

/-- deployer.js `deployMultipleFiles` (lines 103–134): every file is
processed by its own guarded deployToCDN call; the counters are the number
of success and failure records. -/
def deployMultipleFiles (config : CloudflareConfig)
    (files : List FileJob) : BatchOutcome :=
  let results := files.map (runDeployJob config)
  let successCount := (results.filter FileOutcome.isOk).length
  let failureCount := (results.filter (fun r => !r.isOk)).length
  ⟨decide (failureCount = 0), files.length, successCount, failureCount, results⟩

/-- One `axios.get` of testCDNAccess: `validateStatus` accepts statuses
below 500, so those resolve (with the body text and content type); 5xx and
transport failures reject with a message. -/
inductive GetOutcome where
  | resolved : Nat → String → String → GetOutcome
  | rejected : String → GetOutcome

/-- The three result shapes of testCDNAccess. -/
inductive AccessCheck where
  | accessible : Nat → Nat → String → AccessCheck
  | denied : Nat → String → AccessCheck
  | failedReq : String → AccessCheck

/-- The `success` field of a testCDNAccess result. -/
def AccessCheck.success : AccessCheck → Bool
  | AccessCheck.accessible _ _ _ => true
  | AccessCheck.denied _ _ => false
  | AccessCheck.failedReq _ => false

/-- deployer.js `testCDNAccess` (lines 141–174): 200 reports size and
content type; any other resolved status reports `HTTP <status>`; a
rejection reports the error message.  It never throws. -/
def testCDNAccess (url : String) (net : GetOutcome) : AccessCheck :=
  match net with
  | GetOutcome.resolved status body contentType =>
    if status = 200 then AccessCheck.accessible status body.length contentType
    else AccessCheck.denied status ("HTTP " ++ toString status)
  | GetOutcome.rejected msg => AccessCheck.failedReq msg

/-! ### cloudflare/deploy.js: deployOutputFiles (lines 33–81)

Modelled from the point where the output directory has been read: `files`
is the listed output, `getNet` the HTTP oracle of the advisory
accessibility sweep.  The sweep runs `testCDNAccess` on each successful
record and the function then returns `results` unchanged. -/

/-- deploy.js early-returns a `{success, message}` object when the output
directory is empty, otherwise the batch outcome. -/
inductive DeployFilesOutcome where
  | noFiles : DeployFilesOutcome
  | batch : BatchOutcome → DeployFilesOutcome

/-- The advisory loop of deploy.js lines 66–72: a GET per successful
record. -/
def verificationSweep (getNet : String → GetOutcome)
    (results : List FileOutcome) : List AccessCheck :=
  results.filterMap (fun r =>
    match r with
    | FileOutcome.ok d => some (testCDNAccess d.url (getNet d.url))
    | FileOutcome.failed _ _ => none)

/-- deploy.js `deployOutputFiles` after directory listing: deploy the
batch, run the advisory sweep, return the batch outcome (and, for the
model, the sweep's observations). -/
def deployOutputFiles (config : CloudflareConfig) (files : List FileJob)
    (getNet : String → GetOutcome) : DeployFilesOutcome × List AccessCheck :=
  if files.isEmpty then (DeployFilesOutcome.noFiles, [])
  else
    let results := deployMultipleFiles config files
    let checks :=
      if 0 < results.successful then verificationSweep getNet results.results
      else []
    (DeployFilesOutcome.batch results, checks)

/-! ### Concrete fixtures used by counterexamples and witnesses -/

/-- A fully populated deployment configuration. -/
def cfgDemo : CloudflareConfig :=
  ⟨some ("token"), some ("zone"), some ("acct"), some ("ns"),
    some ("cdn.example.com")⟩

/-- All three fields deployToCDN validates are present, but `namespaceId`
(the spec's `CdnTarget` field) is missing. -/
def cfgMissingNamespace : CloudflareConfig :=
  ⟨some ("token"), some ("zone"), some ("acct"), none, some ("cdn.example.com")⟩

/-- A file whose upload is accepted by the remote. -/
def jobOk1 : FileJob :=
  ⟨("output/a.js"), ("a.js"), true, ("x"), KVNet.resolved true ("")⟩

/-- A file whose upload the remote explicitly rejects (mocked rejection). -/
def jobRejected : FileJob :=
  ⟨("output/b.js"), ("b.js"), true, ("y"), KVNet.resolved false ("[]")⟩

/-- A second file whose upload is accepted. -/
def jobOk2 : FileJob :=
  ⟨("output/c.js"), ("c.js"), true, ("z"), KVNet.resolved true ("")⟩

/-- A fetcher endpoint configuration. -/
def fetchCfgDemo : FetchConfig :=
  ⟨("http://mock-api:3001"), ("/api/account-specs")⟩

/-- A 401 rejection carrying an upstream error detail. -/
def authErrDemo : AxiosErr :=
  ⟨some 401, some ("Invalid token"), ("Request failed with status code 401")⟩

/-! ### Helper lemmas -/

/-- A filter and its complement partition a list's length. -/
theorem filter_length_split {α : Type} (p : α → Bool) (l : List α) :
    (l.filter p).length + (l.filter (fun x => !(p x))).length = l.length := by
  induction l with
  | nil => rfl
  | cons a t ih =>
    by_cases h : p a = true <;> simp [List.filter_cons, h] <;> omega

/-! ### Claim theorems for the fetcher and publisher -/

/-- Claim C6: identifier derivation (toCamelCase) is a total function and
maps `trading-instruments` to `tradingInstruments`, `account-specs` to
`accountSpecs`, and `single` to `single`. -/
theorem c6_deriveIdentifier_examples :
    (∀ s : String, ∃ r : String, toCamelCase s = r) ∧
    toCamelCase ("trading-instruments") = ("tradingInstruments") ∧
    toCamelCase ("account-specs") = ("accountSpecs") ∧
    toCamelCase ("single") = ("single") := by
  refine ⟨fun s => ⟨toCamelCase s, rfl⟩, ?_, ?_, ?_⟩ <;> rfl

/-- Claim C7: with no bearer token in the environment, fetchApiData fails
with the configuration error and the HTTP layer is never invoked. -/
theorem c7_fetch_auth_gate :
    ∀ (config : FetchConfig) (outcome : AxiosOutcome),
      (fetchApiData config none outcome).networkCalls = 0 ∧
      (fetchApiData config none outcome).result =
        Except.error (FetchError.configError
          ("API_AUTH_TOKEN environment variable is required")) := by
  intro config outcome
  exact ⟨rfl, rfl⟩

/-- Claim C1, counterexample: with `apiToken`, `zoneId`, `accountId`
present but `namespaceId` (a required `CdnTarget` field) missing,
deployToCDN does not fail with a configuration error — it performs the
upload (one network call) and returns success, interpolating `undefined`
into the KV URL. -/
theorem c1_missing_namespace_not_checked :
    jsTruthy cfgMissingNamespace.namespaceId = false ∧
    (deployToCDN cfgMissingNamespace ("output/a.js") ("a.js") true ("x")
      (KVNet.resolved true (""))).networkCalls = 1 ∧
    (deployToCDN cfgMissingNamespace ("output/a.js") ("a.js") true ("x")
      (KVNet.resolved true (""))).result =
      Except.ok ⟨("a.js"), 1, ("https://cdn.example.com/a.js"), ⟨("a.js"), 1⟩⟩ ∧
    kvUploadUrl cfgMissingNamespace ("a.js") =
      ("https://api.cloudflare.com/client/v4/accounts/acct/storage/kv/namespaces/undefined/values/a.js") := by
  refine ⟨rfl, rfl, rfl, rfl⟩

/-- Claim C1, amended: deployToCDN validates `apiToken`, `zoneId` and
`accountId`; when any of those three is missing it fails with the
configuration error before any network call.  (`namespaceId` and
`publicDomain` are not validated there.) -/
theorem c1_config_gate :
    ∀ (config : CloudflareConfig) (filePath fileName : String) (onDisk : Bool)
      (content : String) (net : KVNet),
      (jsTruthy config.apiToken && jsTruthy config.zoneId
        && jsTruthy config.accountId) = false →
      (deployToCDN config filePath fileName onDisk content net).networkCalls = 0 ∧
      (deployToCDN config filePath fileName onDisk content net).result =
        Except.error (DeployErr.configError
          ("Missing required Cloudflare configuration: apiToken, zoneId, accountId")) := by
  intro config filePath fileName onDisk content net h
  constructor <;> simp [deployToCDN, h]

/-- Witness for `c1_config_gate` at a configuration missing `apiToken`. -/
theorem c1_config_gate_witness :
    (deployToCDN ⟨none, some ("zone"), some ("acct"), some ("ns"), some ("d")⟩
      ("p") ("f") true ("c") (KVNet.resolved true (""))).networkCalls = 0 :=
  (c1_config_gate ⟨none, some ("zone"), some ("acct"), some ("ns"), some ("d")⟩
    ("p") ("f") true ("c") (KVNet.resolved true ("")) (by decide)).1

/-- Claim C5: deployMultipleFiles processes every record through its own
guarded deploy (never throwing), reports total as the input length and the
success/failure counters as the number of succeeding and failing records,
and on 3 records with the 2nd mocked to fail returns total 3, successful 2,
failed 1. -/
theorem c5_publishAll_batch :
    (∀ (config : CloudflareConfig) (files : List FileJob),
      (deployMultipleFiles config files).total = files.length ∧
      (deployMultipleFiles config files).successful =
        (files.filter (fun f => (runDeployJob config f).isOk)).length ∧
      (deployMultipleFiles config files).failed =
        (files.filter (fun f => !(runDeployJob config f).isOk)).length ∧
      (deployMultipleFiles config files).successful +
        (deployMultipleFiles config files).failed =
        (deployMultipleFiles config files).total) ∧
    (deployMultipleFiles cfgDemo [jobOk1, jobRejected, jobOk2]).total = 3 ∧
    (deployMultipleFiles cfgDemo [jobOk1, jobRejected, jobOk2]).successful = 2 ∧
    (deployMultipleFiles cfgDemo [jobOk1, jobRejected, jobOk2]).failed = 1 := by
  refine ⟨fun config files => ⟨rfl, ?_, ?_, ?_⟩, rfl, rfl, rfl⟩
  · simp only [deployMultipleFiles, List.filter_map, List.length_map]
    rfl
  · simp only [deployMultipleFiles, List.filter_map, List.length_map]
    rfl
  · have h := filter_length_split FileOutcome.isOk (files.map (runDeployJob config))
    rw [List.length_map] at h
    simp only [deployMultipleFiles]
    omega

/-- Claim C10: the batch result array is index-aligned with the input
(entry `i` is the outcome of record `i`), the counters partition the total,
and the aggregate success flag holds exactly when nothing failed. -/
theorem c10_batch_results_aligned :
    ∀ (config : CloudflareConfig) (files : List FileJob),
      ((deployMultipleFiles config files).results).length = files.length ∧
      (∀ (i : Nat) (h1 : i < ((deployMultipleFiles config files).results).length)
        (h2 : i < files.length),
        ((deployMultipleFiles config files).results).get ⟨i, h1⟩ =
          runDeployJob config (files.get ⟨i, h2⟩)) ∧
      (deployMultipleFiles config files).successful +
        (deployMultipleFiles config files).failed =
        (deployMultipleFiles config files).total ∧
      ((deployMultipleFiles config files).success = true ↔
        (deployMultipleFiles config files).failed = 0) := by
  intro config files
  refine ⟨by simp [deployMultipleFiles], ?_, ?_, ?_⟩
  · intro i h1 h2
    simp [deployMultipleFiles, List.get_eq_getElem, List.getElem_map]
  · have h := filter_length_split FileOutcome.isOk (files.map (runDeployJob config))
    rw [List.length_map] at h
    simp only [deployMultipleFiles]
    omega
  · simp [deployMultipleFiles]

/-- Witness for `c10_batch_results_aligned` at a one-record batch. -/
theorem c10_batch_results_aligned_witness :
    ((deployMultipleFiles cfgDemo [jobOk1]).results).get ⟨0, by decide⟩ =
      runDeployJob cfgDemo ([jobOk1].get ⟨0, by decide⟩) :=
  (c10_batch_results_aligned cfgDemo [jobOk1]).2.1 0 (by decide) (by decide)

/-- Claim C9: testCDNAccess reports success exactly for a resolved HTTP 200
(carrying size and content type), reports failure for every other status or
request failure without throwing, and the advisory verification sweep of
deployOutputFiles leaves the already-computed batch outcome untouched. -/
theorem c9_verification_advisory :
    (∀ (url : String) (net : GetOutcome),
      ((testCDNAccess url net).success = true ↔
        ∃ body contentType, net = GetOutcome.resolved 200 body contentType)) ∧
    (∀ (config : CloudflareConfig) (files : List FileJob)
      (getNet : String → GetOutcome),
      files ≠ [] →
      (deployOutputFiles config files getNet).1 =
        DeployFilesOutcome.batch (deployMultipleFiles config files)) := by
  constructor
  · intro url net
    cases net with
    | resolved st body ct =>
      by_cases h : st = 200
      · subst h
        simp [testCDNAccess, AccessCheck.success]
      · simp [testCDNAccess, h, AccessCheck.success]
    | rejected m => simp [testCDNAccess, AccessCheck.success]
  · intro config files getNet hne
    cases files with
    | nil => exact absurd rfl hne
    | cons a t => simp [deployOutputFiles]

/-- Witness for `c9_verification_advisory` on a one-file deployment whose
verification GET fails. -/
theorem c9_verification_advisory_witness :
    (deployOutputFiles cfgDemo [jobOk1]
      (fun _ => GetOutcome.rejected ("connect ECONNREFUSED"))).1 =
      DeployFilesOutcome.batch (deployMultipleFiles cfgDemo [jobOk1]) :=
  c9_verification_advisory.2 cfgDemo [jobOk1]
    (fun _ => GetOutcome.rejected ("connect ECONNREFUSED")) (List.cons_ne_nil _ _)

/-- Claim C2, counterexample: an HTTP 200 response whose body is not valid
JSON does not make fetchApiData fail — the raw text the HTTP layer fell
back to is returned as the fetch result. -/
theorem c2_malformed_json_passthrough :
    parseJson ("\x7bnot json") = none ∧
    (fetchApiData fetchCfgDemo (some ("token"))
      (AxiosOutcome.resolved 200 (axiosDecode ("\x7bnot json")))).result =
      Except.ok (RespData.text ("\x7bnot json")) := by
  exact ⟨rfl, rfl⟩

/-- Claim C2, amended: on an HTTP 200 response fetchApiData returns the
HTTP layer's decoded body unchanged: the decoded JSON value when the body
is valid JSON, and the raw body text (with no error raised) when it is
not. -/
theorem c2_http200_passthrough :
    ∀ (config : FetchConfig) (tok body : String),
      tok ≠ ("") →
      (fetchApiData config (some tok)
        (AxiosOutcome.resolved 200 (axiosDecode body))).result =
        Except.ok (axiosDecode body) ∧
      (∀ v, parseJson body = some v → axiosDecode body = RespData.json v) ∧
      (parseJson body = none → axiosDecode body = RespData.text body) := by
  intro config tok body h
  refine ⟨?_, ?_, ?_⟩
  · simp [fetchApiData, jsTruthy, h]
  · intro v hv
    simp [axiosDecode, hv]
  · intro hv
    simp [axiosDecode, hv]

/-- Witness for `c2_http200_passthrough` on a malformed body. -/
theorem c2_http200_passthrough_witness :
    (fetchApiData fetchCfgDemo (some ("token"))
      (AxiosOutcome.resolved 200 (axiosDecode ("\x7bnot json")))).result =
      Except.ok (axiosDecode ("\x7bnot json")) :=
  (c2_http200_passthrough fetchCfgDemo ("token") ("\x7bnot json") (by decide)).1

/-- Claim C4: the fetcher's catch block classifies a rejected request as:
401 — authentication error surfacing the upstream detail; any other status
in 4xx/5xx — API error carrying the status and the upstream detail (when a
non-empty one is present); no response at all — network error carrying the
cause message. -/
theorem c4_fetch_error_classification :
    ∀ (config : FetchConfig) (tok : String) (e : AxiosErr),
      tok ≠ ("") →
      ((fetchApiData config (some tok) (AxiosOutcome.rejected e)).result =
        Except.error (classifyFetchError e)) ∧
      (e.responseStatus = some 401 →
        classifyFetchError e =
          FetchError.authError
            ("Authentication failed: " ++ jsShow e.responseDataError) ∧
        (∀ d, e.responseDataError = some d →
          d.data <:+: ("Authentication failed: " ++ jsShow e.responseDataError).data)) ∧
      (∀ st, e.responseStatus = some st → 400 ≤ st → st < 600 → st ≠ 401 →
        classifyFetchError e =
          FetchError.apiError st
            ("API error (" ++ toString st ++ "): "
              ++ jsOr e.responseDataError e.message) ∧
        (∀ d, e.responseDataError = some d → d ≠ ("") →
          d.data <:+: ("API error (" ++ toString st ++ "): "
            ++ jsOr e.responseDataError e.message).data)) ∧
      (e.responseStatus = none →
        classifyFetchError e =
          FetchError.netError ("Network error: " ++ e.message) ∧
        e.message.data <:+: ("Network error: " ++ e.message).data) := by
  intro config tok e htok
  refine ⟨?_, ?_, ?_, ?_⟩
  · simp [fetchApiData, jsTruthy, htok]
  · intro h401
    refine ⟨by simp [classifyFetchError, h401], ?_⟩
    intro d hd
    rw [hd]
    exact ⟨("Authentication failed: ").data, [],
      by simp [jsShow, String.data_append]⟩
  · intro st hst h400 _ hne
    have hcl : classifyFetchError e =
        FetchError.apiError st
          ("API error (" ++ toString st ++ "): "
            ++ jsOr e.responseDataError e.message) := by
      simp [classifyFetchError, hst, hne, h400]
    refine ⟨hcl, ?_⟩
    intro d hd hdne
    rw [hd]
    exact ⟨("API error (" ++ toString st ++ "): ").data, [],
      by simp [jsOr, hdne, String.data_append]⟩
  · intro hnone
    refine ⟨by simp [classifyFetchError, hnone], ?_⟩
    exact ⟨("Network error: ").data, [], by simp [String.data_append]⟩

/-- Witness for `c4_fetch_error_classification` on a 401 rejection. -/
theorem c4_fetch_error_classification_witness :
    (fetchApiData fetchCfgDemo (some ("token"))
      (AxiosOutcome.rejected authErrDemo)).result =
      Except.error (classifyFetchError authErrDemo) :=
  (c4_fetch_error_classification fetchCfgDemo ("token") authErrDemo (by decide)).1

/-! ### Claim C3: the derived identifier -/

/-- Upper-casing an ASCII lower-case letter subtracts 32. -/
theorem jsUpper_toNat (c : Char) (h : isAsciiLower c = true) :
    (jsUpper c).toNat = c.toNat - 32 := by
  simp only [jsUpper, h, dite_true]
  rfl

/-- Characters differ when their code points do. -/
theorem char_ne_of_toNat_ne (c d : Char) (h : c.toNat ≠ d.toNat) : c ≠ d :=
  fun hc => h (by rw [hc])

/-- The upper-cased letter is not a hyphen. -/
theorem jsUpper_ne_hyphen (c : Char) (h : isAsciiLower c = true) :
    jsUpper c ≠ '-' := by
  refine char_ne_of_toNat_ne _ _ ?_
  have h2 := jsUpper_toNat c h
  have h3 : ('-').toNat = 45 := rfl
  simp only [isAsciiLower, Bool.and_eq_true, decide_eq_true_eq] at h
  omega

/-- The upper-cased letter is not a digit. -/
theorem jsUpper_not_digit (c : Char) (h : isAsciiLower c = true) :
    isDigitChar (jsUpper c) = false := by
  have h2 := jsUpper_toNat c h
  simp only [isAsciiLower, Bool.and_eq_true, decide_eq_true_eq] at h
  simp only [isDigitChar, Bool.and_eq_false_iff, decide_eq_false_iff_not]
  omega

/-- Unfolding equation for `hyphensOk` on a cons cell. -/
theorem hyphensOk_cons (c : Char) (rest : List Char) :
    hyphensOk (c :: rest) = ((!(c = '-') || headLower rest) && hyphensOk rest) :=
  rfl

/-- `hyphensOk` is preserved by dropping the head. -/
theorem hyphensOk_tail (c : Char) (rest : List Char)
    (h : hyphensOk (c :: rest) = true) : hyphensOk rest = true := by
  rw [hyphensOk_cons, Bool.and_eq_true] at h
  exact h.2

/-- The head condition of `hyphensOk`. -/
theorem hyphensOk_head (c : Char) (rest : List Char)
    (h : hyphensOk (c :: rest) = true) :
    (!(c = '-') || headLower rest) = true := by
  rw [hyphensOk_cons, Bool.and_eq_true] at h
  exact h.1

/-- When every hyphen is followed by a lower-case letter, the camel-case
scan removes every hyphen. -/
theorem toCamelCaseL_no_hyphen :
    ∀ l : List Char, hyphensOk l = true → ('-') ∉ toCamelCaseL l := by
  intro l
  induction l using toCamelCaseL.induct with
  | case1 =>
    intro _ hm
    exact absurd hm (List.not_mem_nil _)
  | case2 c =>
    intro hok hm
    simp only [toCamelCaseL, List.mem_singleton] at hm
    have h1 := hyphensOk_head c [] hok
    rw [← hm] at h1
    simp [headLower] at h1
  | case3 c d rest hcond ih =>
    intro hok hm
    have hcondb := hcond
    simp only [Bool.and_eq_true, decide_eq_true_eq] at hcondb
    simp only [toCamelCaseL, hcond, if_true, List.mem_cons] at hm
    rcases hm with hm | hm
    · exact jsUpper_ne_hyphen d hcondb.2 hm.symm
    · exact ih (hyphensOk_tail _ _ (hyphensOk_tail _ _ hok)) hm
  | case4 c d rest hcond ih =>
    intro hok hm
    have hcf : (decide (c = '-') && isAsciiLower d) = false := by
      revert hcond
      cases hb : (decide (c = '-') && isAsciiLower d) <;> simp
    have hc : ¬(c = '-') := by
      intro hceq
      have h1 := hyphensOk_head c (d :: rest) hok
      rw [hceq] at h1
      rw [hceq] at hcf
      simp [headLower] at h1
      simp [h1] at hcf
    simp only [toCamelCaseL, hcf, Bool.false_eq_true, if_false, List.mem_cons] at hm
    rcases hm with hm | hm
    · exact hc hm.symm
    · exact ih (hyphensOk_tail _ _ hok) hm

/-- When the name does not start with a digit (and hyphens are always
followed by lower-case letters), neither does the derived identifier. -/
theorem toCamelCaseL_head_not_digit :
    ∀ l : List Char, headDigit l = false → headDigit (toCamelCaseL l) = false := by
  intro l
  match l with
  | [] => intro _; rfl
  | [c] => intro h; exact h
  | c :: d :: rest =>
    intro h
    by_cases hcond : (c = '-' && isAsciiLower d) = true
    · have hd : isAsciiLower d = true := by
        simp only [Bool.and_eq_true, decide_eq_true_eq] at hcond
        exact hcond.2
      simp only [toCamelCaseL, hcond, if_true, headDigit]
      exact jsUpper_not_digit d hd
    · simp only [Bool.not_eq_true] at hcond
      simp only [toCamelCaseL, hcond, if_false, headDigit]
      exact h

/-- Claim C3, counterexample: over the claimed character set (letters,
digits, hyphens) the derivation can keep a hyphen (a hyphen before a digit
is not a regex match) and can keep a leading digit, so the result is not
always a valid bare identifier. -/
theorem c3_hyphen_digit_counterexample :
    allowedNameChars (("a-1").data) = true ∧
    ('-') ∈ (toCamelCase ("a-1")).data ∧
    allowedNameChars (("1a").data) = true ∧
    headDigit ((toCamelCase ("1a")).data) = true := by
  decide

/-- Claim C3, amended: for names over letters, digits and hyphens in which
every hyphen is immediately followed by an ASCII lower-case letter and the
first character is not a digit, the derived identifier contains no hyphen
and does not start with a digit. -/
theorem c3_camel_identifier_valid :
    ∀ s : String,
      allowedNameChars s.data = true →
      hyphensOk s.data = true →
      headDigit s.data = false →
      ('-') ∉ (toCamelCase s).data ∧ headDigit ((toCamelCase s).data) = false := by
  intro s _ hok hd
  exact ⟨toCamelCaseL_no_hyphen s.data hok, toCamelCaseL_head_not_digit s.data hd⟩

/-- Witness for `c3_camel_identifier_valid` at `trading-instruments`. -/
theorem c3_camel_identifier_valid_witness :
    ('-') ∉ (toCamelCase ("trading-instruments")).data :=
  (c3_camel_identifier_valid ("trading-instruments") (by decide) (by decide)
    (by decide)).1

/-! ### Claim C8: round-trip machinery — lexical lemmas -/

/-- `skipWs` keeps a non-whitespace-headed list. -/
theorem skipWs_not_ws (c : Char) (r : List Char) (h : isWsChar c = false) :
    skipWs (c :: r) = c :: r := by
  simp [skipWs, h]

/-- `skipWs` drops a whitespace head. -/
theorem skipWs_ws_cons (c : Char) (r : List Char) (h : isWsChar c = true) :
    skipWs (c :: r) = skipWs r := by
  simp [skipWs, h]

/-- `skipWs` ignores an all-whitespace prefix. -/
theorem skipWs_allWs (w : List Char) (h : allWs w = true) (cs : List Char) :
    skipWs (w ++ cs) = skipWs cs := by
  induction w with
  | nil => rfl
  | cons a t ih =>
    simp only [allWs, List.all_cons, Bool.and_eq_true] at h
    rw [List.cons_append, skipWs_ws_cons _ _ h.1]
    exact ih h.2

/-- Indentation is all whitespace. -/
theorem allWs_pad (n : Nat) : allWs (pad n) = true := by
  simp only [allWs, pad, List.all_eq_true]
  intro c hc
  rw [List.eq_of_mem_replicate hc]
  rfl

/-- Whitespace is not a digit. -/
theorem ws_not_digit (c : Char) (h : isWsChar c = true) : isDigitChar c = false := by
  simp only [isWsChar, Bool.or_eq_true, decide_eq_true_eq] at h
  rcases h with ((h | h) | h) | h <;> subst h <;> decide

/-- The code point and the digit class of `digitChar k` for `k < 10`. -/
theorem digitChar_spec (k : Nat) (h : k < 10) :
    isDigitChar (digitChar k) = true ∧ (digitChar k).toNat = 48 + k := by
  interval_cases k <;> exact ⟨by decide, by decide⟩

/-- A digit character is none of the parser's structural characters. -/
theorem digit_not_special (c : Char) (h : isDigitChar c = true) :
    isWsChar c = false ∧ c ≠ ']' ∧ c ≠ '}' ∧ c ≠ ',' ∧ c ≠ '-' ∧ c ≠ '"' := by
  refine ⟨?_, ?_, ?_, ?_, ?_, ?_⟩
  · simp only [isWsChar, Bool.or_eq_false_iff, decide_eq_false_iff_not]
    refine ⟨⟨⟨?_, ?_⟩, ?_⟩, ?_⟩ <;> (intro he; subst he; exact absurd h (by decide))
  all_goals (intro he; subst he; exact absurd h (by decide))

/-- Every character `natChars` emits is a digit. -/
theorem natChars_digits (n : Nat) : ∀ c ∈ natChars n, isDigitChar c = true := by
  induction n using Nat.strong_induction_on with
  | _ n ih =>
    rw [natChars.eq_def]
    by_cases h : n < 10
    · simp only [dif_pos h]
      intro c hc
      rw [List.mem_singleton] at hc
      subst hc
      exact (digitChar_spec n h).1
    · simp only [dif_neg h]
      intro c hc
      rw [List.mem_append] at hc
      rcases hc with hc | hc
      · exact ih (n / 10) (Nat.div_lt_self (by omega) (by omega)) c hc
      · rw [List.mem_singleton] at hc
        subst hc
        exact (digitChar_spec (n % 10) (Nat.mod_lt _ (by omega))).1

/-- `natChars` never returns the empty list. -/
theorem natChars_ne_nil (n : Nat) : natChars n ≠ [] := by
  rw [natChars.eq_def]
  by_cases h : n < 10 <;> simp [h]

/-- `natChars` starts with a digit. -/
theorem natChars_head_digit (n : Nat) :
    ∃ c t, natChars n = c :: t ∧ isDigitChar c = true := by
  cases hnc : natChars n with
  | nil => exact absurd hnc (natChars_ne_nil n)
  | cons c t =>
    refine ⟨c, t, rfl, natChars_digits n c ?_⟩
    rw [hnc]
    exact List.mem_cons_self _ _

/-- `digitsToNat` of a list extended by one digit. -/
theorem digitsToNat_snoc (ds : List Char) (c : Char) :
    digitsToNat (ds ++ [c]) = digitsToNat ds * 10 + (c.toNat - 48) := by
  simp [digitsToNat, List.foldl_append]

/-- Reading back the decimal digits recovers the number. -/
theorem digitsToNat_natChars (n : Nat) : digitsToNat (natChars n) = n := by
  induction n using Nat.strong_induction_on with
  | _ n ih =>
    rw [natChars.eq_def]
    by_cases h : n < 10
    · simp only [dif_pos h]
      have h2 := (digitChar_spec n h).2
      simp only [digitsToNat, List.foldl_cons, List.foldl_nil]
      omega
    · simp only [dif_neg h]
      rw [digitsToNat_snoc, ih (n / 10) (Nat.div_lt_self (by omega) (by omega))]
      have h2 := (digitChar_spec (n % 10) (Nat.mod_lt _ (by omega))).2
      omega

/-- `takeDigits` takes nothing from a non-digit-headed list. -/
theorem takeDigits_no_digit (cs : List Char) (h : noDigitHead cs = true) :
    takeDigits cs = ([], cs) := by
  cases cs with
  | nil => rfl
  | cons c t =>
    simp only [noDigitHead, Bool.not_eq_true'] at h
    simp [takeDigits, h]

/-- `takeDigits` consumes exactly a digit run ending at a non-digit. -/
theorem takeDigits_run (ds : List Char) (hds : ∀ c ∈ ds, isDigitChar c = true)
    (rest : List Char) (hrest : noDigitHead rest = true) :
    takeDigits (ds ++ rest) = (ds, rest) := by
  induction ds with
  | nil => simpa using takeDigits_no_digit rest hrest
  | cons c t ih =>
    have hc := hds c (List.mem_cons_self _ _)
    have ht := ih (fun x hx => hds x (List.mem_cons_of_mem _ hx))
    simp [takeDigits, hc, ht]

/-! ### Claim C8: round-trip machinery — string escapes -/

/-- `hexNib` inverts `hexChar` below 16. -/
theorem hexNib_hexChar (k : Nat) (h : k < 16) : hexNib (hexChar k) = some k := by
  interval_cases k <;> decide

/-- Parsing one escaped character prepends the original character. -/
theorem parseStrBody_escape (c : Char) (acc rest : List Char) :
    parseStrBody acc (escapeChar c ++ rest) = parseStrBody (c :: acc) rest := by
  by_cases h1 : c = '"'
  · subst h1
    simp [escapeChar, parseStrBody, unescChar]
  by_cases h2 : c = '\\'
  · subst h2
    simp [escapeChar, parseStrBody, unescChar]
  by_cases h3 : c.toNat = 8
  · have hc : c = Char.ofNat 8 := by
      rw [← h3, Char.ofNat_toNat]
    simp [escapeChar, h1, h2, h3, parseStrBody, unescChar, hc]
  by_cases h4 : c.toNat = 12
  · have hc : c = Char.ofNat 12 := by
      rw [← h4, Char.ofNat_toNat]
    simp [escapeChar, h1, h2, h3, h4, parseStrBody, unescChar, hc]
  by_cases h5 : c = '\n'
  · subst h5
    simp [escapeChar, parseStrBody, unescChar]
  by_cases h6 : c = '\r'
  · subst h6
    simp [escapeChar, parseStrBody, unescChar]
  by_cases h7 : c = '\t'
  · subst h7
    simp [escapeChar, parseStrBody, unescChar]
  by_cases h8 : c.toNat < 32
  · have e1 : hexNib ('0') = some 0 := by decide
    have e2 : hexNib (hexChar (c.toNat / 16)) = some (c.toNat / 16) :=
      hexNib_hexChar _ (by omega)
    have e3 : hexNib (hexChar (c.toNat % 16)) = some (c.toNat % 16) :=
      hexNib_hexChar _ (Nat.mod_lt _ (by omega))
    have e4 : ((0 * 16 + 0) * 16 + c.toNat / 16) * 16 + c.toNat % 16 = c.toNat := by
      omega
    simp only [escapeChar, h1, h2, h3, h4, h5, h6, h7, h8, if_neg, if_pos,
      ite_false, ite_true, List.cons_append, List.nil_append]
    rw [parseStrBody]
    simp only [e1, e2, e3]
    rw [e4, Char.ofNat_toNat]
  · simp only [escapeChar, h1, h2, h3, h4, h5, h6, h7, h8, if_neg, if_false,
      ite_false, List.cons_append, List.nil_append, List.singleton_append]
    rw [parseStrBody.eq_def]
    simp [h1, h2]

/-- Parsing an escaped run recovers the characters up to the closing
quote. -/
theorem parseStrBody_quoted (l : List Char) : ∀ (acc rest : List Char),
    parseStrBody acc (l.flatMap escapeChar ++ '"' :: rest) =
      some (acc.reverse ++ l, rest) := by
  induction l with
  | nil =>
    intro acc rest
    simp [parseStrBody]
  | cons c t ih =>
    intro acc rest
    rw [List.flatMap_cons, List.append_assoc, parseStrBody_escape, ih]
    simp

/-! ### Claim C8: round-trip machinery — shapes of rendered values -/

/-- A rendered value starts with a character that is neither whitespace nor
a closing bracket nor a comma. -/
theorem stringify_head (i : Nat) (v : JsonVal) :
    ∃ c t, stringifyV i v = c :: t ∧ isWsChar c = false ∧ c ≠ ']' ∧ c ≠ '}' := by
  cases v with
  | jnull =>
    exact ⟨'n', ['u', 'l', 'l'], by simp [stringifyV], by decide, by decide, by decide⟩
  | jbool b =>
    cases b with
    | true =>
      exact ⟨'t', ['r', 'u', 'e'], by simp [stringifyV], by decide, by decide, by decide⟩
    | false =>
      exact ⟨'f', ['a', 'l', 's', 'e'], by simp [stringifyV], by decide, by decide,
        by decide⟩
  | jint n =>
    by_cases h : n < 0
    · exact ⟨'-', natChars n.natAbs, by simp [stringifyV, intChars, h], by decide,
        by decide, by decide⟩
    · obtain ⟨c, t, hnc, hcd⟩ := natChars_head_digit n.natAbs
      have hsp := digit_not_special c hcd
      exact ⟨c, t, by simp [stringifyV, intChars, h, hnc], hsp.1, hsp.2.1, hsp.2.2.1⟩
  | jstr s =>
    exact ⟨'"', s.data.flatMap escapeChar ++ ['"'], by simp [stringifyV, quoteChars],
      by decide, by decide, by decide⟩
  | jarr es =>
    cases es with
    | nil => exact ⟨'[', [']'], by simp [stringifyV], by decide, by decide, by decide⟩
    | cons e es2 =>
      exact ⟨'[', '\n' :: (pad (i + 1) ++ (stringifyV (i + 1) e ++
        (arrTail (i + 1) es2 ++ '\n' :: (pad i ++ [']'])))),
        by simp [stringifyV], by decide, by decide, by decide⟩
  | jobj ms =>
    cases ms with
    | nil => exact ⟨'{', ['}'], by simp [stringifyV], by decide, by decide, by decide⟩
    | cons m ms2 =>
      exact ⟨'{', '\n' :: (pad (i + 1) ++ (memberChars (i + 1) m ++
        (objTail (i + 1) ms2 ++ '\n' :: (pad i ++ ['}'])))),
        by simp [stringifyV], by decide, by decide, by decide⟩

/-- An all-whitespace run before a non-digit closer cannot start with a
digit. -/
theorem noDigitHead_ws_close (w : List Char) (hw : allWs w = true) (c : Char)
    (hc : isDigitChar c = false) (rest : List Char) :
    noDigitHead (w ++ c :: rest) = true := by
  cases w with
  | nil => simp [noDigitHead, hc]
  | cons a t =>
    simp only [allWs, List.all_cons, Bool.and_eq_true] at hw
    simp [noDigitHead, ws_not_digit a hw.1]

/-- The context following one rendered array item never starts with a
digit. -/
theorem noDigitHead_arr_ctx (i : Nat) (es : List JsonVal) (w rest : List Char)
    (hw : allWs w = true) :
    noDigitHead (arrTail i es ++ (w ++ ']' :: rest)) = true := by
  cases es with
  | nil =>
    simp only [arrTail, List.nil_append]
    exact noDigitHead_ws_close w hw ']' (by decide) rest
  | cons e es2 =>
    simp only [arrTail, List.cons_append, noDigitHead]
    decide

/-- The context following one rendered object member never starts with a
digit. -/
theorem noDigitHead_obj_ctx (i : Nat) (ms : List (String × JsonVal))
    (w rest : List Char) (hw : allWs w = true) :
    noDigitHead (objTail i ms ++ (w ++ '}' :: rest)) = true := by
  cases ms with
  | nil =>
    simp only [objTail, List.nil_append]
    exact noDigitHead_ws_close w hw '}' (by decide) rest
  | cons m ms2 =>
    simp only [objTail, List.cons_append, noDigitHead]
    decide

/-- Fuel measures are positive. -/
theorem nfV_pos (v : JsonVal) : 1 ≤ nfV v := by
  cases v with
  | jnull => simp [nfV]
  | jbool b => simp [nfV]
  | jint n => simp [nfV]
  | jstr s => simp [nfV]
  | jarr es => cases es <;> simp [nfV]
  | jobj ms => cases ms <;> simp [nfV]

/-- Whitespace cons preserves `allWs`. -/
theorem allWs_cons (c : Char) (w : List Char) (hc : isWsChar c = true)
    (hw : allWs w = true) : allWs (c :: w) = true := by
  simp only [allWs, List.all_cons] at hw ⊢
  simp [hc, hw]

mutual

/-- Parsing the rendering of a value (after any whitespace, before any
non-digit context) recovers the value and the context. -/
theorem parseVal_round (fuel : Nat) : ∀ (v : JsonVal) (i : Nat) (w0 rest : List Char),
    allWs w0 = true → noDigitHead rest = true → nfV v ≤ fuel →
    parseVal fuel (w0 ++ (stringifyV i v ++ rest)) = some (v, rest) := by
  match fuel with
  | 0 =>
    intro v i w0 rest _ _ hf
    exact absurd hf (by have := nfV_pos v; omega)
  | fuel + 1 =>
    intro v i w0 rest hw0 hrest hf
    cases v with
    | jnull =>
      simp only [stringifyV]
      simp only [parseVal]
      rw [skipWs_allWs w0 hw0]
      rfl
    | jbool b =>
      cases b with
      | true =>
        simp only [stringifyV]
        simp only [parseVal]
        rw [skipWs_allWs w0 hw0]
        rfl
      | false =>
        simp only [stringifyV]
        simp only [parseVal]
        rw [skipWs_allWs w0 hw0]
        rfl
    | jint n =>
      obtain ⟨c, t, hnc, hcd⟩ := natChars_head_digit n.natAbs
      have hsp := digit_not_special c hcd
      by_cases h : n < 0
      · have hs : stringifyV i (JsonVal.jint n) = '-' :: natChars n.natAbs := by
          simp [stringifyV, intChars, h]
        rw [hs]
        simp only [parseVal, List.cons_append]
        rw [skipWs_allWs w0 hw0, skipWs_not_ws _ _ (by decide), hnc]
        have htd : takeDigits (c :: (t ++ rest)) = (c :: t, rest) := by
          rw [← List.cons_append, ← hnc]
          exact takeDigits_run _ (natChars_digits _) rest hrest
        simp only [List.cons_append, htd, if_true]
        rw [← hnc, digitsToNat_natChars]
        have he : (-(n.natAbs : Int)) = n := by omega
        rw [he]
      · have hs : stringifyV i (JsonVal.jint n) = c :: t := by
          simp [stringifyV, intChars, h, hnc]
        rw [hs]
        simp only [parseVal, List.cons_append]
        rw [skipWs_allWs w0 hw0, skipWs_not_ws _ _ hsp.1]
        have htd : takeDigits (c :: (t ++ rest)) = (c :: t, rest) := by
          rw [← List.cons_append, ← hnc]
          exact takeDigits_run _ (natChars_digits _) rest hrest
        simp only [if_neg hsp.2.2.2.2.1, hcd, if_true, htd]
        rw [← hnc, digitsToNat_natChars]
        have he : ((n.natAbs : Nat) : Int) = n := by omega
        rw [he]
    | jstr s =>
      have hs : stringifyV i (JsonVal.jstr s) ++ rest =
          '"' :: (s.data.flatMap escapeChar ++ ('"' :: rest)) := by
        simp [stringifyV, quoteChars]
      rw [hs]
      simp only [parseVal]
      rw [skipWs_allWs w0 hw0, skipWs_not_ws _ _ (by decide)]
      have hps : parseStrBody [] (s.data.flatMap escapeChar ++ ('"' :: rest)) =
          some (s.data, rest) := by
        rw [parseStrBody_quoted]
        simp
      simp only [hps]
      rfl
    | jarr es =>
      cases es with
      | nil =>
        simp only [stringifyV]
        simp only [parseVal]
        rw [skipWs_allWs w0 hw0]
        rfl
      | cons e es2 =>
        have hs : stringifyV i (JsonVal.jarr (e :: es2)) ++ rest =
            '[' :: ('\n' :: (pad (i + 1) ++ (stringifyV (i + 1) e ++
              (arrTail (i + 1) es2 ++ ('\n' :: (pad i ++ (']' :: rest))))))) := by
          simp [stringifyV]
        rw [hs]
        simp only [parseVal]
        rw [skipWs_allWs w0 hw0, skipWs_not_ws _ _ (by decide)]
        obtain ⟨c1, t1, hsh, hc1ws, hc1br, _⟩ := stringify_head (i + 1) e
        have hsk : skipWs ('\n' :: (pad (i + 1) ++ (stringifyV (i + 1) e ++
            (arrTail (i + 1) es2 ++ ('\n' :: (pad i ++ (']' :: rest))))))) =
            c1 :: (t1 ++ (arrTail (i + 1) es2 ++
              ('\n' :: (pad i ++ (']' :: rest))))) := by
          rw [skipWs_ws_cons _ _ (by decide), skipWs_allWs _ (allWs_pad _), hsh,
            List.cons_append, skipWs_not_ws _ _ hc1ws]
        have hfe : nfE (e :: es2) ≤ fuel := by
          have hv : nfV (JsonVal.jarr (e :: es2)) = nfE (e :: es2) + 1 := rfl
          omega
        have hpe : parseElems fuel (c1 :: (t1 ++ (arrTail (i + 1) es2 ++
            ('\n' :: (pad i ++ (']' :: rest)))))) = some (e :: es2, rest) := by
          have h0 := parseElems_round fuel e es2 (i + 1) [] ('\n' :: pad i) rest
            (by decide) (allWs_cons _ _ (by decide) (allWs_pad i)) hrest hfe
          rw [List.nil_append, hsh] at h0
          simpa [List.cons_append, List.append_assoc] using h0
        simp only [hsk, if_neg hc1br, hpe]
        rfl
    | jobj ms =>
      cases ms with
      | nil =>
        simp only [stringifyV]
        simp only [parseVal]
        rw [skipWs_allWs w0 hw0]
        rfl
      | cons m ms2 =>
        obtain ⟨k, v0⟩ := m
        have hs : stringifyV i (JsonVal.jobj ((k, v0) :: ms2)) ++ rest =
            '{' :: ('\n' :: (pad (i + 1) ++ (memberChars (i + 1) (k, v0) ++
              (objTail (i + 1) ms2 ++ ('\n' :: (pad i ++ ('}' :: rest))))))) := by
          simp [stringifyV]
        rw [hs]
        simp only [parseVal]
        rw [skipWs_allWs w0 hw0, skipWs_not_ws _ _ (by decide)]
        have hsk : skipWs ('\n' :: (pad (i + 1) ++ (memberChars (i + 1) (k, v0) ++
            (objTail (i + 1) ms2 ++ ('\n' :: (pad i ++ ('}' :: rest))))))) =
            '"' :: ((k.data.flatMap escapeChar ++ ['"']) ++
              ((':' :: (' ' :: stringifyV (i + 1) v0)) ++
                (objTail (i + 1) ms2 ++ ('\n' :: (pad i ++ ('}' :: rest)))))) := by
          rw [skipWs_ws_cons _ _ (by decide), skipWs_allWs _ (allWs_pad _)]
          simp only [memberChars, quoteChars, List.cons_append, List.append_assoc]
          rw [skipWs_not_ws _ _ (by decide)]
        have hfm : nfM ((k, v0) :: ms2) ≤ fuel := by
          have hv : nfV (JsonVal.jobj ((k, v0) :: ms2)) = nfM ((k, v0) :: ms2) + 1 := rfl
          omega
        have hpm : parseMembers fuel ('"' :: ((k.data.flatMap escapeChar ++ ['"']) ++
            ((':' :: (' ' :: stringifyV (i + 1) v0)) ++
              (objTail (i + 1) ms2 ++ ('\n' :: (pad i ++ ('}' :: rest))))))) =
            some ((k, v0) :: ms2, rest) := by
          have h0 := parseMembers_round fuel k v0 ms2 (i + 1) [] ('\n' :: pad i) rest
            (by decide) (allWs_cons _ _ (by decide) (allWs_pad i)) hrest hfm
          rw [List.nil_append] at h0
          simpa [memberChars, quoteChars, List.cons_append, List.append_assoc] using h0
        simp only [hsk, if_neg (by decide : ¬(('"' : Char) = '}')), hpm]
        rfl

/-- Parsing rendered comma-separated items up to the closing bracket
recovers the item list. -/
theorem parseElems_round (fuel : Nat) : ∀ (e : JsonVal) (es : List JsonVal) (i : Nat)
    (w0 w rest : List Char),
    allWs w0 = true → allWs w = true → noDigitHead rest = true →
    nfE (e :: es) ≤ fuel →
    parseElems fuel (w0 ++ (stringifyV i e ++ (arrTail i es ++ (w ++ ']' :: rest)))) =
      some (e :: es, rest) := by
  match fuel with
  | 0 =>
    intro e es i w0 w rest _ _ _ hf
    have hfe : nfE (e :: es) = 1 + Nat.max (nfV e) (nfE es) := rfl
    omega
  | fuel + 1 =>
    intro e es i w0 w rest hw0 hw hrest hf
    have hfe : nfE (e :: es) = 1 + Nat.max (nfV e) (nfE es) := rfl
    have hmax1 : nfV e ≤ Nat.max (nfV e) (nfE es) := Nat.le_max_left _ _
    have hmax2 : nfE es ≤ Nat.max (nfV e) (nfE es) := Nat.le_max_right _ _
    simp only [parseElems]
    have h1 : parseVal fuel (w0 ++ (stringifyV i e ++
        (arrTail i es ++ (w ++ ']' :: rest)))) =
        some (e, arrTail i es ++ (w ++ ']' :: rest)) :=
      parseVal_round fuel e i w0 _ hw0 (noDigitHead_arr_ctx i es w rest hw)
        (by omega)
    cases es with
    | nil =>
      have h2 : skipWs (arrTail i [] ++ (w ++ ']' :: rest)) = ']' :: rest := by
        simp only [arrTail, List.nil_append]
        rw [skipWs_allWs w hw, skipWs_not_ws _ _ (by decide)]
      simp only [h1, h2]
    | cons e2 es2 =>
      have h2 : skipWs (arrTail i (e2 :: es2) ++ (w ++ ']' :: rest)) =
          ',' :: ('\n' :: ((pad i ++ (stringifyV i e2 ++ arrTail i es2)) ++
            (w ++ ']' :: rest))) := by
        simp only [arrTail, List.cons_append]
        rw [skipWs_not_ws _ _ (by decide)]
      have h3 : parseElems fuel ('\n' :: ((pad i ++ (stringifyV i e2 ++ arrTail i es2)) ++
          (w ++ ']' :: rest))) = some (e2 :: es2, rest) := by
        have h0 := parseElems_round fuel e2 es2 i ('\n' :: pad i) w rest
          (allWs_cons _ _ (by decide) (allWs_pad i)) hw hrest (by omega)
        simpa [List.cons_append, List.append_assoc] using h0
      simp only [h1, h2, h3]

/-- Parsing rendered comma-separated members up to the closing brace
recovers the member list. -/
theorem parseMembers_round (fuel : Nat) : ∀ (k : String) (v : JsonVal)
    (ms : List (String × JsonVal)) (i : Nat) (w0 w rest : List Char),
    allWs w0 = true → allWs w = true → noDigitHead rest = true →
    nfM ((k, v) :: ms) ≤ fuel →
    parseMembers fuel (w0 ++ (memberChars i (k, v) ++
      (objTail i ms ++ (w ++ '}' :: rest)))) = some ((k, v) :: ms, rest) := by
  match fuel with
  | 0 =>
    intro k v ms i w0 w rest _ _ _ hf
    have hfm : nfM ((k, v) :: ms) = 1 + Nat.max (nfV v) (nfM ms) := rfl
    omega
  | fuel + 1 =>
    intro k v ms i w0 w rest hw0 hw hrest hf
    have hfm : nfM ((k, v) :: ms) = 1 + Nat.max (nfV v) (nfM ms) := rfl
    have hmax1 : nfV v ≤ Nat.max (nfV v) (nfM ms) := Nat.le_max_left _ _
    have hmax2 : nfM ms ≤ Nat.max (nfV v) (nfM ms) := Nat.le_max_right _ _
    simp only [parseMembers]
    have harg : w0 ++ (memberChars i (k, v) ++ (objTail i ms ++ (w ++ '}' :: rest))) =
        w0 ++ ('"' :: (k.data.flatMap escapeChar ++ ('"' :: (':' :: (' ' ::
          (stringifyV i v ++ (objTail i ms ++ (w ++ '}' :: rest)))))))) := by
      simp [memberChars, quoteChars, List.cons_append, List.append_assoc]
    rw [harg, skipWs_allWs w0 hw0, skipWs_not_ws _ _ (by decide)]
    have hkey : parseStrBody [] (k.data.flatMap escapeChar ++ ('"' :: (':' :: (' ' ::
        (stringifyV i v ++ (objTail i ms ++ (w ++ '}' :: rest))))))) =
        some (k.data, ':' :: (' ' :: (stringifyV i v ++
          (objTail i ms ++ (w ++ '}' :: rest))))) := by
      rw [parseStrBody_quoted]
      simp
    have hsc : skipWs (':' :: (' ' :: (stringifyV i v ++
        (objTail i ms ++ (w ++ '}' :: rest))))) =
        ':' :: (' ' :: (stringifyV i v ++ (objTail i ms ++ (w ++ '}' :: rest)))) :=
      skipWs_not_ws _ _ (by decide)
    have hval : parseVal fuel (' ' :: (stringifyV i v ++
        (objTail i ms ++ (w ++ '}' :: rest)))) =
        some (v, objTail i ms ++ (w ++ '}' :: rest)) := by
      have h0 := parseVal_round fuel v i [' ']
        (objTail i ms ++ (w ++ '}' :: rest)) (by decide)
        (noDigitHead_obj_ctx i ms w rest hw) (by omega)
      simpa using h0
    cases ms with
    | nil =>
      have h2 : skipWs (objTail i [] ++ (w ++ '}' :: rest)) = '}' :: rest := by
        simp only [objTail, List.nil_append]
        rw [skipWs_allWs w hw, skipWs_not_ws _ _ (by decide)]
      simp only [hkey, hsc, hval, h2]
    | cons m2 ms2 =>
      obtain ⟨k2, v2⟩ := m2
      have h2 : skipWs (objTail i ((k2, v2) :: ms2) ++ (w ++ '}' :: rest)) =
          ',' :: ('\n' :: ((pad i ++ (memberChars i (k2, v2) ++ objTail i ms2)) ++
            (w ++ '}' :: rest))) := by
        simp only [objTail, List.cons_append]
        rw [skipWs_not_ws _ _ (by decide)]
      have h3 : parseMembers fuel ('\n' :: ((pad i ++ (memberChars i (k2, v2) ++
          objTail i ms2)) ++ (w ++ '}' :: rest))) = some ((k2, v2) :: ms2, rest) := by
        have h0 := parseMembers_round fuel k2 v2 ms2 i ('\n' :: pad i) w rest
          (allWs_cons _ _ (by decide) (allWs_pad i)) hw hrest (by omega)
        simpa [List.cons_append, List.append_assoc] using h0
      simp only [hkey, hsc, hval, h2, h3]

end

/-- `Nat.max` is bounded by the sum. -/
theorem nat_max_le_add (a b : Nat) : Nat.max a b ≤ a + b :=
  Nat.max_le.mpr ⟨Nat.le_add_right _ _, Nat.le_add_left _ _⟩

mutual

/-- The parser fuel a value needs is at most its rendered length. -/
theorem nfV_le_len (v : JsonVal) : ∀ i : Nat, nfV v ≤ (stringifyV i v).length := by
  intro i
  cases v with
  | jnull => simp [nfV, stringifyV]
  | jbool b => cases b <;> simp [nfV, stringifyV]
  | jint n =>
    have hnf : nfV (JsonVal.jint n) = 1 := rfl
    have hp : 0 < (natChars n.natAbs).length :=
      List.length_pos.mpr (natChars_ne_nil n.natAbs)
    by_cases h : n < 0 <;> simp [stringifyV, intChars, h, hnf] <;> omega
  | jstr s =>
    have hnf : nfV (JsonVal.jstr s) = 1 := rfl
    simp [stringifyV, quoteChars, hnf]
  | jarr es =>
    cases es with
    | nil => simp [nfV, stringifyV]
    | cons e es2 =>
      have hnf : nfV (JsonVal.jarr (e :: es2)) = nfE (e :: es2) + 1 := rfl
      have h := nfE_le_len e es2 (i + 1)
      simp only [hnf, stringifyV, List.length_cons, List.length_append]
      omega
  | jobj ms =>
    cases ms with
    | nil => simp [nfV, stringifyV]
    | cons m ms2 =>
      obtain ⟨k, v0⟩ := m
      have hnf : nfV (JsonVal.jobj ((k, v0) :: ms2)) = nfM ((k, v0) :: ms2) + 1 := rfl
      have h := nfM_le_len k v0 ms2 (i + 1)
      simp only [hnf, stringifyV, List.length_cons, List.length_append]
      omega
termination_by sizeOf v
decreasing_by all_goals (simp_wf; omega)

/-- The parser fuel rendered items need is at most their rendered length
plus one. -/
theorem nfE_le_len (e : JsonVal) (es : List JsonVal) : ∀ i : Nat,
    nfE (e :: es) ≤ (stringifyV i e).length + (arrTail i es).length + 1 := by
  intro i
  have hfe : nfE (e :: es) = 1 + Nat.max (nfV e) (nfE es) := rfl
  have h1 := nfV_le_len e i
  cases es with
  | nil =>
    have h0 : nfE ([] : List JsonVal) = 0 := rfl
    have hm := nat_max_le_add (nfV e) (nfE [])
    simp only [arrTail, List.length_nil]
    omega
  | cons e2 es2 =>
    have h2 := nfE_le_len e2 es2 i
    have hm := nat_max_le_add (nfV e) (nfE (e2 :: es2))
    simp only [arrTail, List.length_cons, List.length_append]
    simp only [arrTail, List.length_cons, List.length_append] at h2
    omega
termination_by sizeOf e + sizeOf es + 1
decreasing_by all_goals (simp_wf; omega)

/-- The parser fuel rendered members need is at most their rendered length
plus one. -/
theorem nfM_le_len (k : String) (v : JsonVal) (ms : List (String × JsonVal)) :
    ∀ i : Nat,
    nfM ((k, v) :: ms) ≤ (memberChars i (k, v)).length + (objTail i ms).length + 1 := by
  intro i
  have hfm : nfM ((k, v) :: ms) = 1 + Nat.max (nfV v) (nfM ms) := rfl
  have h1 := nfV_le_len v i
  cases ms with
  | nil =>
    have h0 : nfM ([] : List (String × JsonVal)) = 0 := rfl
    have hm := nat_max_le_add (nfV v) (nfM [])
    simp only [memberChars, objTail, List.length_nil, List.length_cons,
      List.length_append]
    omega
  | cons m2 ms2 =>
    obtain ⟨k2, v2⟩ := m2
    have h2 := nfM_le_len k2 v2 ms2 i
    have hm := nat_max_le_add (nfV v) (nfM ((k2, v2) :: ms2))
    simp only [memberChars, objTail, List.length_cons, List.length_append]
    simp only [memberChars, objTail, List.length_cons, List.length_append] at h2
    omega
termination_by sizeOf v + sizeOf ms + 1
decreasing_by all_goals (simp_wf; omega)

end

/-- Parsing the full rendering of any value recovers the value. -/
theorem parse_stringify (v : JsonVal) : parseJsonChars (stringifyV 0 v) = some v := by
  have hlen := nfV_le_len v 0
  have h := parseVal_round ((stringifyV 0 v).length + 1) v 0 [] [] rfl rfl (by omega)
  simp only [List.nil_append, List.append_nil] at h
  simp [parseJsonChars, h, skipWs]

/-- The extraction step recovers exactly the embedded data literal from the
generated module text. -/
theorem extract_transform (data : JsonVal) (name ts : String) :
    extractModuleData name ts (transformToJS data name ts) = stringifyV 0 data := by
  simp only [extractModuleData, transformToJS, jsonStringify]
  rw [String.data_append, String.data_append, List.append_assoc]
  rw [List.drop_left]
  have hl : ((⟨stringifyV 0 data⟩ : String).data ++ (moduleSuffix name ts).data).length -
      (moduleSuffix name ts).data.length = (stringifyV 0 data).length := by
    simp [List.length_append]
  rw [hl, List.take_left]

/-- Claim C8: for every (integer-numeric) JSON value and every endpoint
name and capture timestamp, parsing the data literal extracted from the
generated module text reproduces a structure equal to the original data —
the JSON round-trip through the generated module holds. -/
theorem c8_module_roundtrip :
    ∀ (data : JsonVal) (name timestamp : String),
      parseJsonChars (extractModuleData name timestamp
        (transformToJS data name timestamp)) = some data ∧
      parseJson (jsonStringify data) = some data := by
  intro data name timestamp
  constructor
  · rw [extract_transform]
    exact parse_stringify data
  · exact parse_stringify data
